import Mathlib

/-!
Verification development for the `smolagents-rs` repository.

This file shallowly embeds the parts of the source that the checked
properties are about:

* the sandboxed script interpreter's value type, environment and the
  evaluator fragment exercised by the properties
  (`src/local_python_interpreter.rs`),
* the agent transcript model, memory projection and the step loop
  (`src/agents.rs`),
* the tool-registry dispatch (`src/tools/tool_traits.rs`),
* the parallel task facility (`src/parallel.rs`).

Conventions: Rust `Result<T, E>` becomes `Except E T`; the `&mut` state
threading of the interpreter becomes explicit state passing; `HashMap`
environments become association lists with replace-or-append insertion;
machine integers become `Int`/`Nat`.  The `f64` variant of the
interpreter's `CustomConstant` and the floating-point arithmetic paths are
not modelled (floating point); none of the checked properties depend on
them.
-/

namespace Smolagents

/-! ## Interpreter values (`CustomConstant`, local_python_interpreter.rs:83-148) -/

/-- Embeds the runtime value enum `CustomConstant`
(local_python_interpreter.rs:83-92).  The Rust `Float(f64)` variant is not
modelled (floating point); `PyObj(PyObject)` is modelled as the string the
Rust code would render it to (`obj.to_string()`), which is the only way
the embedded fragment observes such a handle. -/
inductive CustomConstant where
  | Int (i : Int)
  | Str (s : String)
  | Bool (b : Bool)
  | Tuple (items : List CustomConstant)
  | Dict (keys : List String) (values : List CustomConstant)
  | PyObj (objRepr : String)
deriving Repr

mutual

/-- Embeds `CustomConstant::str` (local_python_interpreter.rs:101-141).
The `Dict` arm reproduces the source verbatim: it renders the
`'key': value` pairs, closes the brace, and then — without resetting the
accumulator — appends the values joined by `", "` and a second closing
brace.  The Rust `Dict` arm indexes `values[i]` while iterating over
`keys` (panicking when `values` is shorter); `strPairs` walks the two
lists in lockstep, which agrees with the source whenever the lists have
equal length, the only shape evaluation ever constructs. -/
def CustomConstant.str : CustomConstant → String
  | .Str s => s
  | .Int i => toString i
  | .Tuple t => "[" ++ CustomConstant.strList t ++ "]"
  | .Dict keys values =>
      "\x7b" ++ CustomConstant.strPairs keys values ++ "\x7d"
        ++ CustomConstant.strList values ++ "\x7d"
  | .PyObj objRepr => objRepr
  | .Bool b => toString b

/-- The `", "`-joined rendering loop shared by the `Tuple` and `Dict`
arms of `CustomConstant::str`. -/
def CustomConstant.strList : List CustomConstant → String
  | [] => ""
  | [x] => x.str
  | x :: y :: xs => x.str ++ ", " ++ CustomConstant.strList (y :: xs)

/-- The `'key': value` pair rendering loop of the `Dict` arm of
`CustomConstant::str`. -/
def CustomConstant.strPairs : List String → List CustomConstant → String
  | [], _ => ""
  | _ :: _, [] => ""
  | [k], v :: _ => "'" ++ k ++ "': " ++ v.str
  | k :: k' :: ks, v :: v' :: vs =>
      "'" ++ k ++ "': " ++ v.str ++ ", " ++ CustomConstant.strPairs (k' :: ks) (v' :: vs)
  | k :: _ :: _, [v] => "'" ++ k ++ "': " ++ v.str

end

/-! ## Interpreter errors (`InterpreterError`, errors.rs:42-50) -/

/-- Embeds the `InterpreterError` enum (errors.rs:42-50). -/
inductive InterpreterError where
  | SyntaxError (msg : String)
  | RuntimeError (msg : String)
  | FinalAnswer (payload : String)
  | OperationLimitExceeded
  | UnauthorizedImport (module : String)
  | UnsupportedOperation (op : String)
deriving Repr, DecidableEq

/-- Embeds the `Display` impl for `InterpreterError` (errors.rs:52-70),
used when the code agent records an interpreter failure as an
`AgentError::Execution(e.to_string())`. -/
def InterpreterError.toDisplay : InterpreterError → String
  | .SyntaxError msg => "Syntax Error: " ++ msg
  | .RuntimeError msg => "Runtime Error: " ++ msg
  | .FinalAnswer msg => "Final Answer: " ++ msg
  | .OperationLimitExceeded =>
      "Operation limit exceeded. Possible infinite loop detected."
  | .UnauthorizedImport module => "Unauthorized import of module: " ++ module
  | .UnsupportedOperation op => "Unsupported operation: " ++ op

/-! ## Subscripting (`evaluate_expr`, `Expr::Subscript` arm,
local_python_interpreter.rs:812-929)

Integer subscripts are delegated to the host runtime:
`value_obj.as_ref(py).get_item(index)` marshals the value into CPython and
performs native indexing, and a raised `PyErr` is rendered through
`From<PyErr> for InterpreterError` (local_python_interpreter.rs:77-81) as
`RuntimeError(err.to_string())`.  `pyGetItem` embeds that host boundary:
Python-style negative indexing on lists and strings, with the exact
`IndexError` texts pinned by the repository's own tests
(local_python_interpreter.rs:1100-1153), and `KeyError` for integer keys
against a dict.  The round-trip marshalling (`into_py` /
`extract_constant_from_pyobject`) is modelled as the identity on the
embedded value fragment. -/

/-- Python's index normalization: a negative index counts back from the
end of a sequence of length `n`. -/
def pyIndex (i : Int) (n : Nat) : Int := if i < 0 then i + n else i

/-- Host-runtime `get_item` with an integer index, as invoked by the
`Expr::Subscript` arm (local_python_interpreter.rs:826-833). -/
def pyGetItem (v : CustomConstant) (i : Int) : Except InterpreterError CustomConstant :=
  match v with
  | .Tuple items =>
      if 0 ≤ pyIndex i items.length ∧ pyIndex i items.length < (items.length : Int) then
        .ok (items.getD (pyIndex i items.length).toNat (.Str ""))
      else
        .error (.RuntimeError "IndexError: list index out of range")
  | .Str s =>
      if 0 ≤ pyIndex i s.data.length ∧ pyIndex i s.data.length < (s.data.length : Int) then
        .ok (.Str (String.mk [s.data.getD (pyIndex i s.data.length).toNat ' ']))
      else
        .error (.RuntimeError "IndexError: string index out of range")
  | .Dict _ _ =>
      .error (.RuntimeError ("KeyError: " ++ toString i))
  | .Int _ =>
      .error (.RuntimeError "TypeError: 'int' object is not subscriptable")
  | .Bool _ =>
      .error (.RuntimeError "TypeError: 'bool' object is not subscriptable")
  | .PyObj _ =>
      .error (.RuntimeError "TypeError: object is not subscriptable")

/-- The length of a value that the spec calls a sequence (a list or a
string); `none` for every other value. -/
def seqLength : CustomConstant → Option Nat
  | .Tuple items => some items.length
  | .Str s => some s.data.length
  | _ => none

/-- The `IndexError` message the host runtime raises for the given
sequence kind, as pinned by the repository's tests. -/
def seqIndexErrorMsg : CustomConstant → String
  | .Tuple _ => "IndexError: list index out of range"
  | _ => "IndexError: string index out of range"

/-! ## AST fragment (rustpython_parser `ast` as consumed by
local_python_interpreter.rs)

The parser itself is the external `rustpython_parser` crate; the
evaluator consumes its `Stmt`/`Expr` trees.  The fragment below covers
the constructs the checked properties exercise: constants, names,
list/tuple literals, name-based calls with positional and keyword
arguments, and subscripts.  Omitted source constructs (for-loops, list
comprehensions, dict literals, f-strings, slice expressions, attribute
calls, binary/unary operators) are orthogonal to every property proved
here. -/

/-- Literal constants of the embedded AST fragment (the `Constant` cases
the evaluated scripts use; `Float` is not modelled). -/
inductive Const where
  | Int (i : Int)
  | Str (s : String)
  | Bool (b : Bool)
deriving Repr, DecidableEq

/-- Expression fragment of the rustpython AST as consumed by
`evaluate_expr` (local_python_interpreter.rs:476-949). -/
inductive PyExpr where
  | constant (c : Const)
  | name (id : String)
  | listLit (elts : List PyExpr)
  | tupleLit (elts : List PyExpr)
  | call (func : String) (args : List PyExpr) (keywords : List (String × PyExpr))
  | subscript (value : PyExpr) (slice : PyExpr)
deriving Repr

/-- Assignment targets: a single name or a tuple of names
(`Stmt::Assign` arm, local_python_interpreter.rs:396-433; other target
shapes panic in the source and are not representable here). -/
inductive AssignTarget where
  | nameT (id : String)
  | tupleT (ids : List String)
deriving Repr

/-- Statement fragment of the rustpython AST as consumed by
`evaluate_stmt` (local_python_interpreter.rs:328-440). -/
inductive PyStmt where
  | exprStmt (e : PyExpr)
  | assign (targets : List AssignTarget) (value : PyExpr)
deriving Repr

/-! ## Environment (`state: HashMap<String, Box<dyn Any>>`)

The interpreter's state maps names to type-erased boxes holding either a
`CustomConstant` binding or the `Vec<String>` print log stored under the
reserved key `"print_logs"`.  The embedding keeps the same single flat
map, with the type-erasure made explicit: a `Name` lookup that hits the
print-log box fails to downcast exactly as in the source. -/

/-- One type-erased environment slot (`Box<dyn Any>`). -/
inductive EnvEntry where
  | const (c : CustomConstant)
  | logs (ls : List String)
deriving Repr

/-- The interpreter state: an association list with `HashMap::insert`
(replace-or-append) semantics. -/
abbrev InterpState := List (String × EnvEntry)

/-- Embeds `state.get(name)`. -/
def InterpState.get (st : InterpState) (name : String) : Option EnvEntry :=
  match st with
  | [] => none
  | (k, v) :: rest => if k = name then some v else InterpState.get rest name

/-- Embeds `state.insert(name, entry)`: replace the existing slot, appending a
new one when absent. -/
def InterpState.insert (st : InterpState) (name : String) (entry : EnvEntry) : InterpState :=
  match st with
  | [] => [(name, entry)]
  | (k, v) :: rest =>
      if k = name then (k, entry) :: rest
      else (k, v) :: InterpState.insert rest name entry

/-- Bind a list of names to a list of values, as the tuple-unpacking arm
of `Stmt::Assign` does after its length check. -/
def InterpState.insertAll (st : InterpState) : List String → List CustomConstant → InterpState
  | [], _ => st
  | _, [] => st
  | id :: ids, v :: vs => (st.insert id (.const v)).insertAll ids vs

/-! ## Tool tables (local_python_interpreter.rs:222-326)

`setup_static_tools` builds closures that delegate to the host runtime and
`setup_custom_tools` wraps the registered `AnyTool`s; both are external
effects behind the two maps the evaluator consults, so the embedding keeps
them as association lists of opaque Lean functions.  (The source converts
arguments through `Constant::from` before a static call; the conversion is
the identity on the value fragment used here.) -/

/-- The two tool tables `evaluate_expr` dispatches on. -/
structure Tools where
  staticTools : List (String × (List CustomConstant → Except InterpreterError CustomConstant))
  customTools : List (String ×
    (List CustomConstant → List (String × String) → Except InterpreterError CustomConstant))

/-- An interpreter with no registered tools, as in
`LocalPythonInterpreter::new(vec![])`. -/
def noTools : Tools := ⟨[], []⟩

/-- Embeds `From<Constant> for CustomConstant` on the literal fragment
(local_python_interpreter.rs:179-193 and the `Expr::Constant` arm at
762-765). -/
def constToCustom : Const → CustomConstant
  | .Int i => .Int i
  | .Str s => .Str s
  | .Bool b => .Bool b

/-- Dictionary subscripting with a string key
(local_python_interpreter.rs:836-850).  The `CustomConstant::Dict` is
marshalled into a `PyDict` by successive `set_item` calls, so a duplicated
key ends up bound to its last value; `dict.get_item` misses raise
`RuntimeError("KeyError: '<key>'")`. -/
def dictGetItem (ks : List String) (vs : List CustomConstant) (key : String) :
    Except InterpreterError CustomConstant :=
  match (ks.zip vs).reverse.find? (fun p => p.1 = key) with
  | some p => .ok p.2
  | none => .error (.RuntimeError ("KeyError: '" ++ key ++ "'"))

mutual

/-- Embeds `evaluate_expr` (local_python_interpreter.rs:476-949) on the
AST fragment.  Branch order follows the source: in a call, positional
arguments are evaluated first, then keyword arguments (each converted with
`.str()`); the reserved `final_answer` pseudo-tool is checked before
`print`, which precedes static-tool and custom-tool dispatch; an unknown
name fails with `Function '<name>' not found`. -/
def evalExpr (tools : Tools) :
    PyExpr → InterpState → Except InterpreterError CustomConstant × InterpState
  | .constant c, st => (.ok (constToCustom c), st)
  | .name id, st =>
      match st.get id with
      | some (.const c) => (.ok c, st)
      | some (.logs _) =>
          (.error (.RuntimeError ("Error in downcasting constant " ++ id)), st)
      | none =>
          (.error (.RuntimeError ("Variable '" ++ id ++ "' used before assignment")), st)
  | .listLit elts, st =>
      match evalExprList tools elts st with
      | (.error e, st') => (.error e, st')
      | (.ok vs, st') => (.ok (.Tuple vs), st')
  | .tupleLit elts, st =>
      match evalExprList tools elts st with
      | (.error e, st') => (.error e, st')
      | (.ok vs, st') => (.ok (.Tuple vs), st')
  | .call func args keywords, st =>
      match evalExprList tools args st with
      | (.error e, st1) => (.error e, st1)
      | (.ok argVals, st1) =>
        match evalKeywords tools keywords st1 with
        | (.error e, st2) => (.error e, st2)
        | (.ok kwPairs, st2) =>
          if func = "final_answer" then
            match kwPairs.lookup "answer" with
            | some a => (.error (.FinalAnswer a), st2)
            | none =>
                (.error (.FinalAnswer
                  (String.intercalate " " (argVals.map CustomConstant.str))), st2)
          else if func = "print" then
            let joined := String.intercalate " " (argVals.map CustomConstant.str)
            match st2.get "print_logs" with
            | some (.logs ls) =>
                (.ok (.Str joined), st2.insert "print_logs" (.logs (ls ++ [joined])))
            | some (.const _) => (.error (.RuntimeError "print_logs is not a list"), st2)
            | none =>
                (.ok (.Str joined),
                 st2.insert "print_logs" (.logs (argVals.map CustomConstant.str)))
          else
            match tools.staticTools.lookup func with
            | some f => (f argVals, st2)
            | none =>
              match tools.customTools.lookup func with
              | some f => (f argVals kwPairs, st2)
              | none =>
                  (.error (.RuntimeError ("Function '" ++ func ++ "' not found")), st2)
  | .subscript value slice, st =>
      match evalExpr tools value st with
      | (.error e, st1) => (.error e, st1)
      | (.ok v, st1) =>
        match evalExpr tools slice st1 with
        | (.error e, st2) => (.error e, st2)
        | (.ok sliceVal, st2) =>
          match sliceVal with
          | .Int i => (pyGetItem v i, st2)
          | .Str s =>
            match v with
            | .Dict ks vs => (dictGetItem ks vs s, st2)
            | _ => (.error (.RuntimeError "Invalid slice"), st2)
          | _ => (.error (.RuntimeError "Invalid slice"), st2)

/-- Sequential left-to-right evaluation of an argument or element list
(the `collect::<Result<Vec<_>, _>>()` pattern of the source). -/
def evalExprList (tools : Tools) :
    List PyExpr → InterpState → Except InterpreterError (List CustomConstant) × InterpState
  | [], st => (.ok [], st)
  | e :: es, st =>
      match evalExpr tools e st with
      | (.error err, st') => (.error err, st')
      | (.ok v, st') =>
        match evalExprList tools es st' with
        | (.error err, st'') => (.error err, st'')
        | (.ok vs, st'') => (.ok (v :: vs), st'')

/-- Keyword-argument evaluation: each value is evaluated and converted
with `.str()` (local_python_interpreter.rs:590-602). -/
def evalKeywords (tools : Tools) :
    List (String × PyExpr) → InterpState →
      Except InterpreterError (List (String × String)) × InterpState
  | [], st => (.ok [], st)
  | (k, e) :: ks, st =>
      match evalExpr tools e st with
      | (.error err, st') => (.error err, st')
      | (.ok v, st') =>
        match evalKeywords tools ks st' with
        | (.error err, st'') => (.error err, st'')
        | (.ok kvs, st'') => (.ok ((k, v.str) :: kvs), st'')

end

/-- Embeds the assignment loop of `evaluate_stmt`'s `Stmt::Assign` arm
(local_python_interpreter.rs:396-433): the right side is re-evaluated for
each target; a tuple target requires a tuple value of matching length. -/
def evalAssign (tools : Tools) :
    List AssignTarget → PyExpr → InterpState →
      Except InterpreterError CustomConstant × InterpState
  | [], _, st => (.ok (.Str ""), st)
  | .nameT id :: rest, value, st =>
      match evalExpr tools value st with
      | (.error e, st1) => (.error e, st1)
      | (.ok v, st1) => evalAssign tools rest value (st1.insert id (.const v))
  | .tupleT ids :: rest, value, st =>
      match evalExpr tools value st with
      | (.error e, st1) => (.error e, st1)
      | (.ok v, st1) =>
        match v with
        | .Tuple vs =>
          if ids.length = vs.length then
            evalAssign tools rest value (st1.insertAll ids vs)
          else
            (.error (.RuntimeError ("Tuple unpacking failed. Expected "
              ++ toString ids.length ++ " values, got " ++ toString vs.length)), st1)
        | _ =>
            (.error (.RuntimeError
              "Tuple unpacking failed. Expected values of type tuple"), st1)

/-- Embeds `evaluate_stmt` (local_python_interpreter.rs:328-440) on the
statement fragment.  An assignment statement's value is the empty-string
constant. -/
def evalStmt (tools : Tools) :
    PyStmt → InterpState → Except InterpreterError CustomConstant × InterpState
  | .exprStmt e, st => evalExpr tools e st
  | .assign targets value, st => evalAssign tools targets value st

/-- Embeds `evaluate_ast` (local_python_interpreter.rs:442-453): the
statements run in order and the last statement's value is the result
(`Str ""` for an empty program). -/
def evalAst (tools : Tools) :
    List PyStmt → InterpState → Except InterpreterError CustomConstant × InterpState
  | [], st => (.ok (.Str ""), st)
  | [s], st => evalStmt tools s st
  | s :: s' :: rest, st =>
      match evalStmt tools s st with
      | (.error e, st1) => (.error e, st1)
      | (.ok _, st1) => evalAst tools (s' :: rest) st1

/-- Embeds `evaluate_python_code` (local_python_interpreter.rs:994-1007).
The parser is the external `rustpython_parser` crate, so the function
takes the parse's outcome: a parse failure becomes
`InterpreterError::SyntaxError` carrying the parser's message, before any
evaluation touches the state. -/
def evaluate_python_code (tools : Tools) (parseResult : Except String (List PyStmt))
    (st : InterpState) : Except InterpreterError String × InterpState :=
  match parseResult with
  | .error e => (.error (.SyntaxError e), st)
  | .ok ast =>
    match evalAst tools ast st with
    | (.error e, st1) => (.error e, st1)
    | (.ok v, st1) => (.ok v.str, st1)

/-- Embeds `LocalPythonInterpreter::forward`
(local_python_interpreter.rs:1026-1039): parse, evaluate against the
persistent state, and return the result's string form together with the
`"\n"`-joined print log (empty when the `print_logs` slot is absent or
fails to downcast). -/
def LocalPythonInterpreter.forward (tools : Tools)
    (parseResult : Except String (List PyStmt)) (st : InterpState) :
    Except InterpreterError (String × String) × InterpState :=
  match parseResult with
  | .error e => (.error (.SyntaxError e), st)
  | .ok ast =>
    match evalAst tools ast st with
    | (.error e, st1) => (.error e, st1)
    | (.ok v, st1) =>
      let executionLogs := match st1.get "print_logs" with
        | some (.logs ls) => String.intercalate "\n" ls
        | _ => ""
      (.ok (v.str, executionLogs), st1)

/-- The AST the external parser produces for the script
`final_answer(answer="X")`: one expression statement calling the reserved
`final_answer` pseudo-tool with the `answer=` keyword bound to the string
literal `X`. -/
def finalAnswerScript (X : String) : PyStmt :=
  .exprStmt (.call "final_answer" [] [("answer", .constant (.Str X))])

/-! ## Agent data model (agents.rs, models/types.rs, models/openai.rs,
errors.rs) -/

/-- Embeds `MessageRole` (models/types.rs:6-14). -/
inductive MessageRole where
  | User
  | Assistant
  | System
  | ToolCallRole
  | ToolResponse
deriving Repr, DecidableEq

/-- Embeds `Message` (models/types.rs:28-31). -/
structure Message where
  role : MessageRole
  content : String
deriving Repr, DecidableEq

/-- Embeds `FunctionCall` (models/openai.rs:39-42); the
`serde_json::Value` argument payload is kept as its JSON text. -/
structure FunctionCall where
  name : String
  arguments : String
deriving Repr, DecidableEq

/-- Embeds `ToolCall` (models/openai.rs:31-36). -/
structure ToolCall where
  id : Option String
  callType : Option String
  function : FunctionCall
deriving Repr, DecidableEq

/-- Embeds `AgentError` (errors.rs:5-11). -/
inductive AgentError where
  | Parsing (msg : String)
  | Execution (msg : String)
  | MaxSteps (msg : String)
  | Generation (msg : String)
deriving Repr, DecidableEq

/-- Embeds `AgentError::message` (errors.rs:15-24); the `Display` impl
(errors.rs:25-34) renders exactly the same string. -/
def AgentError.message : AgentError → String
  | .Parsing msg => msg
  | .Execution msg => msg
  | .MaxSteps msg => msg
  | .Generation msg => msg

/-- Embeds `AgentStep` (agents.rs:306-314), the ActionRecord built during
one iteration of the step loop. -/
structure AgentStep where
  agentMemory : Option (List Message)
  llmOutput : Option String
  toolCall : Option (List ToolCall)
  error : Option AgentError
  observations : Option (List String)
  stepIndex : Nat
deriving Repr, DecidableEq

/-- The blank ActionRecord `direct_run` creates for step `n`
(agents.rs:124-131). -/
def AgentStep.blank (n : Nat) : AgentStep :=
  ⟨none, none, none, none, none, n⟩

/-- Embeds the transcript entry enum `Step` (agents.rs:283-290). -/
inductive Step where
  | PlanningStep (plan : String) (facts : String)
  | TaskStep (task : String)
  | SystemPromptStep (prompt : String)
  | ActionStep (record : AgentStep)
  | ToolCallStep (toolCall : ToolCall)
deriving Repr, DecidableEq

/-! ## Memory projection (`Agent::write_inner_memory_from_logs`,
agents.rs:190-280) -/

/-- The fixed retry hint appended to a recorded error when it is fed back
into memory (agents.rs:270). -/
def retryHint : String :=
  "\nNow let's retry: take care not to repeat previous errors! If you have retried several times, try a completely different approach.\n"

/-- The messages one transcript entry contributes to the projection: the
loop body of `write_inner_memory_from_logs` (agents.rs:193-277).
`ser` stands for `serde_json::to_string_pretty` on a tool call (an
external serializer).  For an `ActionStep`, per the source: the raw model
output as an Assistant message (unless summary mode); one Assistant
message per issued tool call; then, when both the tool-call list and the
observations are present, one User message per tool call indexed into the
observation list (the source reads `observations[i]` and panics when the
observations run short — `getD` supplies `""` there); when only
observations are present, one combined `"Observations: ..."` User message;
finally the retry-hint User message when an error was recorded. -/
def stepMessages (ser : ToolCall → String) (summaryMode : Bool) : Step → List Message
  | .ToolCallStep _ => []
  | .PlanningStep plan facts =>
      Message.mk .Assistant ("[PLAN]:\n" ++ plan) ::
        (if summaryMode then [] else [Message.mk .Assistant ("[FACTS]:\n" ++ facts)])
  | .TaskStep task => [Message.mk .User ("New Task: " ++ task)]
  | .SystemPromptStep prompt => [Message.mk .System prompt]
  | .ActionStep s =>
      (match s.llmOutput with
       | some out => if summaryMode then [] else [Message.mk .Assistant out]
       | none => [])
      ++ (match s.toolCall with
          | some tcs => tcs.map (fun tc => Message.mk .Assistant (ser tc))
          | none => [])
      ++ (match s.toolCall, s.observations with
          | some tcs, some obs =>
              tcs.enum.map (fun p =>
                Message.mk .User
                  ("Call id: " ++ p.2.id.getD "" ++ "\nObservation: " ++ obs.getD p.1 ""))
          | none, some obs =>
              [Message.mk .User ("Observations: " ++ String.intercalate "\n" obs)]
          | _, _ => [])
      ++ (match s.error with
          | some e => [Message.mk .User ("Error: " ++ e.message ++ retryHint)]
          | none => [])

/-- Embeds `write_inner_memory_from_logs` (agents.rs:190-280).  The Rust
`summary_mode: Option<bool>` defaults to `false` via `unwrap_or`; callers
pass the resolved boolean here. -/
def write_inner_memory_from_logs (ser : ToolCall → String) (summaryMode : Bool)
    (logs : List Step) : List Message :=
  (logs.map (stepMessages ser summaryMode)).flatten

/-! ## Step state machine (`Agent::run` / `direct_run` /
`provide_final_answer`, agents.rs:120-188)

The agent's observable state is its transcript, step counter, bound on
steps, task, and resolved system prompt.  The per-step work (building
memory, calling the Model Gateway, dispatching tools or the interpreter)
is the trait method `step`, abstracted here as a function `stepFn` from
the agent state to the step's outcome: the optional final answer plus the
filled-in ActionRecord, or a fatal error.  The extra best-effort model
call is likewise abstracted as the gateway function it wraps. -/

/-- The fields of `MultiStepAgent` (agents.rs:324-336) that the run loop
reads and writes. -/
structure AgentState where
  logs : List Step
  stepNumber : Nat
  maxSteps : Nat
  task : String
  systemPrompt : String
deriving Repr, DecidableEq

/-- The transcript/counter preparation at the top of `Agent::run`
(agents.rs:152-166): store the task; on `reset` clear the transcript, push
a fresh `SystemPromptStep` and zero the step counter; otherwise push the
system prompt if the transcript is empty or overwrite element 0 with it;
finally append the `TaskStep`. -/
def runPrepare (st : AgentState) (task : String) (reset : Bool) : AgentState :=
  let st := { st with task := task }
  let sys := Step.SystemPromptStep st.systemPrompt
  let st :=
    if reset then
      { st with logs := [sys], stepNumber := 0 }
    else if st.logs = [] then
      { st with logs := [sys] }
    else
      { st with logs := sys :: st.logs.tail }
  { st with logs := st.logs ++ [Step.TaskStep task] }

/-- One iteration's bookkeeping after `step` returns (agents.rs:133-135):
push the ActionRecord and increment the step counter. -/
def AgentState.advance (st : AgentState) (record : AgentStep) : AgentState :=
  { st with logs := st.logs ++ [Step.ActionStep record], stepNumber := st.stepNumber + 1 }

/-- The `while` loop of `direct_run` (agents.rs:121-136): while no final
answer and the counter is below `max_steps`, run `step` on a blank
ActionRecord (a step error propagates immediately, before the record is
pushed), then push the record and increment.  The fuel
`maxSteps - stepNumber` bounds the iterations exactly, since the counter
grows by one per iteration. -/
def runLoop (stepFn : AgentState → Except AgentError (Option String × AgentStep)) :
    Nat → AgentState → Except AgentError (Option String × AgentState)
  | 0, st => .ok (none, st)
  | fuel + 1, st =>
      if st.stepNumber < st.maxSteps then
        match stepFn st with
        | .error e => .error e
        | .ok (answer, record) =>
          let st' := st.advance record
          match answer with
          | some a => .ok (some a, st')
          | none => runLoop stepFn fuel st'
      else .ok (none, st)

/-- Embeds `Agent::direct_run` (agents.rs:120-148): run the step loop;
if it ends without a final answer and the counter reached `max_steps`,
call `provide_final_answer` — whose error propagates through the `?`
operator — and fall back to the fixed string only when the answer is
still absent. -/
def direct_run (stepFn : AgentState → Except AgentError (Option String × AgentStep))
    (provideFn : AgentState → Except AgentError (Option String))
    (st : AgentState) : Except AgentError (String × AgentState) :=
  match runLoop stepFn (st.maxSteps - st.stepNumber) st with
  | .error e => .error e
  | .ok (finalAnswer, st') =>
    if finalAnswer.isNone ∧ st'.maxSteps ≤ st'.stepNumber then
      match provideFn st' with
      | .error e => .error e
      | .ok answer =>
          .ok (answer.getD "Max steps reached without final answer", st')
    else
      .ok (finalAnswer.getD "Max steps reached without final answer", st')

/-- The fixed System message opening the best-effort request
(agents.rs:173-176). -/
def stuckFraming : String :=
  "An agent tried to answer a user query but it got stuck and failed to do so. You are tasked with providing an answer instead. Here is the agent's memory:"

/-- The prefix of the closing User request of the best-effort call
(agents.rs:181). -/
def finalRequestText : String :=
  "Based on the above, please provide an answer to the following user request: \n```\n"

/-- The message sequence `provide_final_answer` (agents.rs:172-188) sends
to the Model Gateway: a framing System message, the summary-mode
projection of the transcript minus its first row (the Rust slices
`[1..]`, which panics on an empty projection; `List.drop` is total), and
a closing User request naming the task. -/
def provideInputMessages (ser : ToolCall → String) (st : AgentState) : List Message :=
  Message.mk .System stuckFraming ::
    ((write_inner_memory_from_logs ser true st.logs).drop 1 ++
      [Message.mk .User (finalRequestText ++ st.task)])

/-- Embeds `Agent::provide_final_answer` (agents.rs:172-188).  `modelRun`
is the Model Gateway composed with `get_response`; on success the answer
is always `Some`, and a gateway failure propagates. -/
def provide_final_answer (modelRun : List Message → Except AgentError String)
    (ser : ToolCall → String) (st : AgentState) : Except AgentError (Option String) :=
  match modelRun (provideInputMessages ser st) with
  | .error e => .error e
  | .ok response => .ok (some response)

/-- Embeds `Agent::run` with `stream = false` (agents.rs:152-171): prepare
the transcript, then `direct_run`.  (The `stream = true` arm calls
`stream_run`, which is `todo!()` in the source.) -/
def Agent.runNonStreaming
    (stepFn : AgentState → Except AgentError (Option String × AgentStep))
    (provideFn : AgentState → Except AgentError (Option String))
    (st : AgentState) (task : String) (reset : Bool) :
    Except AgentError (String × AgentState) :=
  direct_run stepFn provideFn (runPrepare st task reset)

/-! ## Code agent step (`CodeAgent::step`, agents.rs:741-814) -/

/-- How `CodeAgent::step` consumes the interpreter's outcome
(agents.rs:779-805): a successful evaluation becomes the step's single
observation (`Execution logs:`/`Observation:`, truncated at 30,000
characters); the `FinalAnswer` signal ends the step with that payload;
any other interpreter error is recorded on the ActionRecord as a
recoverable `AgentError::Execution(e.to_string())`.  The 30,000 bound is
compared against the Rust byte length but truncates by characters; the
embedding measures characters for both. -/
def codeAgentHandleInterp (res : Except InterpreterError (String × String))
    (record : AgentStep) : Option String × AgentStep :=
  match res with
  | .ok (result, executionLogs) =>
      let observation :=
        if executionLogs ≠ "" then "Execution logs: " ++ executionLogs
        else "Observation: " ++ result
      let observation :=
        if 30000 < observation.length then
          observation.take 30000
            ++ " \n....This content has been truncated due to the 30000 character limit....."
        else observation
      (none, { record with observations := some [observation] })
  | .error (.FinalAnswer answer) => (some answer, record)
  | .error e =>
      (none, { record with error := some (.Execution e.toDisplay) })

/-! ## Function-calling agent step (`FunctionCallingAgent::step`,
agents.rs:587-668) and tool dispatch (`ToolGroup::call`,
tool_traits.rs:85-97) -/

/-- One registered tool as the dispatcher sees it: its name and its
`forward_json` behaviour (an external effect, abstracted as a function of
the JSON argument text). -/
structure ToolEntry where
  name : String
  forward : String → Except AgentError String

/-- Embeds `ToolGroup::call` for `Vec<Box<dyn AnyTool>>`
(tool_traits.rs:86-93): find the tool by name and forward the arguments;
an unregistered name fails with `AgentError::Execution("Tool not found")`. -/
def toolGroupCall (registry : List ToolEntry) (fc : FunctionCall) :
    Except AgentError String :=
  match registry.find? (fun t => t.name = fc.name) with
  | some t => t.forward fc.arguments
  | none => .error (.Execution "Tool not found")

/-- The model's structured reply as `FunctionCallingAgent::step` reads it:
`get_response` (Ok content or an error, modelled as `Option`) and
`get_tools_used`. -/
structure ModelResponse where
  content : Option String
  toolCalls : List ToolCall
deriving Repr, DecidableEq

/-- The tool-dispatch loop of `FunctionCallingAgent::step`
(agents.rs:624-655): the reserved `final_answer` name is called and its
result terminates the run (its dispatch error propagating through `?`);
any other call appends either a truncated `Observation from <name>:` line
or — when dispatch fails, unregistered names included — the error's
display text to the observation list, and the loop continues. -/
def processToolCalls (registry : List ToolEntry) :
    List ToolCall → List String → Except AgentError (Option String × List String)
  | [], obs => .ok (none, obs)
  | c :: rest, obs =>
      if c.function.name = "final_answer" then
        match toolGroupCall registry c.function with
        | .error e => .error e
        | .ok answer => .ok (some answer, obs)
      else
        match toolGroupCall registry c.function with
        | .ok observation =>
            processToolCalls registry rest
              (obs ++ ["Observation from " ++ c.function.name ++ ": "
                ++ observation.take 30000])
        | .error e => processToolCalls registry rest (obs ++ [e.message])

/-- Embeds the response-handling part of `FunctionCallingAgent::step`
(agents.rs:612-662), after the memory write and Model Gateway call: store
the tool calls on the record; a non-empty free-text response seeds the
observation list; free text with no tool calls is returned as the final
answer at once (observations left unset); otherwise the dispatch loop
runs and the collected observations are stored. -/
def functionCallingStep (registry : List ToolEntry) (resp : ModelResponse)
    (record : AgentStep) : Except AgentError (Option String × AgentStep) :=
  let record := { record with toolCall := some resp.toolCalls }
  let obs0 : List String :=
    match resp.content with
    | some r => if r.trim = "" then [] else [r]
    | none => []
  match resp.content, resp.toolCalls with
  | some r, [] => .ok (some r, record)
  | _, _ =>
    match processToolCalls registry resp.toolCalls obs0 with
    | .error e => .error e
    | .ok (some answer, _) => .ok (some answer, record)
    | .ok (none, obs) => .ok (none, { record with observations := some obs })

/-! ## Parallel task facility (`run_tasks_parallel`, parallel.rs:18-39) -/

deriving instance DecidableEq for Except

/-- What one worker thread's `builder(); agent.run(&task, false, true)`
computation comes to: its returned result, or a panic of the thread. -/
inductive WorkerOutcome where
  | completed (r : Except String String)
  | panicked
deriving Repr, DecidableEq

/-- The conversion `h.join().unwrap_or_else(|_| Err(anyhow!("Thread
panicked")))` applies to one joined worker (parallel.rs:37). -/
def joinOutcome : WorkerOutcome → Except String String
  | .completed r => r
  | .panicked => .error "Thread panicked"

/-- Embeds `run_tasks_parallel` (parallel.rs:18-39).  One worker is
spawned per task in input order, each running a private agent built by
the shared builder on its own task; `runWorker` is that per-task
computation.  `finishOrder` is the order in which the worker threads
happen to complete; `join` on handle `i` blocks until worker `i` has
completed, so the facility returns only once every spawned worker
finished (`none` models a worker that never completes), and the collected
vector pairs position `i` with worker `i`'s own outcome, a panic becoming
that task's error. -/
def run_tasks_parallel (finishOrder : List Nat) (runWorker : String → WorkerOutcome)
    (tasks : List String) : Option (List (Except String String)) :=
  if (List.range tasks.length).all (fun i => finishOrder.contains i) then
    some (tasks.map (fun t => joinOutcome (runWorker t)))
  else none

/-! ## Helper lemmas -/

/-- The accumulator of `String.intercalate.go` factors out on the left. -/
theorem intercalateGo_append (s : String) : ∀ (l : List String) (a b : String),
    String.intercalate.go (a ++ b) s l = a ++ String.intercalate.go b s l := by
  intro l
  induction l with
  | nil => intro a b; rfl
  | cons x xs ih =>
    intro a b
    show String.intercalate.go (a ++ b ++ s ++ x) s xs
      = a ++ String.intercalate.go (b ++ s ++ x) s xs
    rw [show a ++ b ++ s ++ x = a ++ (b ++ s ++ x) by simp [String.append_assoc]]
    exact ih a (b ++ s ++ x)

/-- Unfolding `String.intercalate` on a list of two or more pieces. -/
theorem intercalate_cons₂ (s x y : String) (l : List String) :
    String.intercalate s (x :: y :: l) = x ++ s ++ String.intercalate s (y :: l) := by
  show String.intercalate.go (x ++ s ++ y) s l = x ++ s ++ String.intercalate.go y s l
  rw [show x ++ s ++ y = (x ++ s) ++ y by rfl, intercalateGo_append]

/-- The interpreter's rendering loop for value lists is `", "`-joining. -/
theorem strList_eq_intercalate : ∀ l : List CustomConstant,
    CustomConstant.strList l = String.intercalate ", " (l.map CustomConstant.str)
  | [] => rfl
  | [x] => rfl
  | x :: y :: xs => by
    rw [CustomConstant.strList, strList_eq_intercalate (y :: xs)]
    simp only [List.map_cons]
    rw [intercalate_cons₂]

/-- The interpreter's rendering loop for dictionary pairs is `", "`-joining
of the `'key': value` fragments, for key and value lists of equal
length. -/
theorem strPairs_eq_intercalate : ∀ (ks : List String) (vs : List CustomConstant),
    ks.length = vs.length →
    CustomConstant.strPairs ks vs
      = String.intercalate ", "
          (List.zipWith (fun k v => "'" ++ k ++ "': " ++ CustomConstant.str v) ks vs)
  | [], [] => fun _ => rfl
  | [k], [v] => fun _ => rfl
  | k :: k' :: ks, v :: v' :: vs => fun h => by
    rw [CustomConstant.strPairs, strPairs_eq_intercalate (k' :: ks) (v' :: vs) (by simpa using h)]
    simp only [List.zipWith_cons_cons]
    rw [intercalate_cons₂]
  | [], _ :: _ => fun h => by simp at h
  | _ :: _, [] => fun h => by simp at h
  | [_], _ :: _ :: _ => fun h => by simp at h
  | _ :: _ :: _, [_] => fun h => by simp at h

/-- The step loop only ever appends to the transcript. -/
theorem runLoop_logs_extend (stepFn : AgentState → Except AgentError (Option String × AgentStep)) :
    ∀ (fuel : Nat) (st : AgentState) (fa : Option String) (st' : AgentState),
      runLoop stepFn fuel st = .ok (fa, st') → ∃ extra, st'.logs = st.logs ++ extra := by
  intro fuel
  induction fuel with
  | zero =>
    intro st fa st' h
    simp only [runLoop] at h
    injection h with h
    injection h with h1 h2
    subst h2
    exact ⟨[], by simp⟩
  | succ fuel ih =>
    intro st fa st' h
    rw [runLoop] at h
    by_cases hc : st.stepNumber < st.maxSteps
    · simp only [if_pos hc] at h
      cases hs : stepFn st with
      | error e => rw [hs] at h; exact absurd h (by simp)
      | ok p =>
        rw [hs] at h
        obtain ⟨ans, record⟩ := p
        cases ans with
        | some a =>
          simp only at h
          injection h with h
          injection h with h1 h2
          subst h2
          exact ⟨[Step.ActionStep record], rfl⟩
        | none =>
          simp only at h
          obtain ⟨extra, he⟩ := ih _ _ _ h
          exact ⟨Step.ActionStep record :: extra, by
            simp [he, AgentState.advance]⟩
    · simp only [if_neg hc] at h
      injection h with h
      injection h with h1 h2
      subst h2
      exact ⟨[], by simp⟩

/-! ## Claim theorems -/

/-- C2: for every call of `run` with `reset = true`, immediately after the
reset the transcript's element 0 is a `SystemPromptStep` (holding the
agent's system prompt) and the step counter equals 0, regardless of the
transcript's previous contents. -/
theorem c2_reset_invariant (st : AgentState) (task : String) :
    (runPrepare st task true).logs.head? = some (Step.SystemPromptStep st.systemPrompt)
      ∧ (runPrepare st task true).stepNumber = 0 := by
  constructor <;> simp [runPrepare]

/-- C9: for every `run` call with `reset = false` on a non-empty
transcript, element 0 is overwritten with a `SystemPromptStep` holding the
current system prompt and a `TaskStep` is appended, the other existing
entries staying in place; consequently element 0 of the transcript is the
current `SystemPromptStep` after the preparation for any `reset` value,
and it stays so through the step loop, which only appends. -/
theorem c9_system_prompt_overwrite (st : AgentState) (task : String) (h : st.logs ≠ []) :
    (runPrepare st task false).logs
        = Step.SystemPromptStep st.systemPrompt :: (st.logs.tail ++ [Step.TaskStep task])
    ∧ (∀ reset, (runPrepare st task reset).logs.head?
        = some (Step.SystemPromptStep st.systemPrompt))
    ∧ (∀ stepFn fuel fa st',
        runLoop stepFn fuel (runPrepare st task false) = .ok (fa, st') →
        st'.logs.head? = some (Step.SystemPromptStep st.systemPrompt)) := by
  refine ⟨by simp [runPrepare, h], ?_, ?_⟩
  · intro reset
    cases reset <;> simp [runPrepare, h]
  · intro stepFn fuel fa st' hrun
    obtain ⟨extra, he⟩ := runLoop_logs_extend stepFn fuel _ fa st' hrun
    rw [he]
    simp [runPrepare, h]

/-- Witness for C9 at a concrete non-empty transcript. -/
theorem c9_witness :
    (runPrepare ⟨[Step.TaskStep "old"], 3, 5, "t", "sp"⟩ "new" false).logs
      = Step.SystemPromptStep "sp" :: ([Step.TaskStep "old"].tail ++ [Step.TaskStep "new"]) :=
  (c9_system_prompt_overwrite ⟨[Step.TaskStep "old"], 3, 5, "t", "sp"⟩ "new" (by simp)).1

/-- C10: for every mapping value with at least one entry, the string form
produced by `CustomConstant::str` renders the `'key': value` pairs,
closes them with a brace, then appends the values a second time separated
by `", "` and terminates with a second closing brace — so it differs from
the usual single-brace dictionary rendering. -/
theorem c10_dict_double_brace (ks : List String) (vs : List CustomConstant)
    (_hne : ks ≠ []) (hlen : ks.length = vs.length) :
    CustomConstant.str (.Dict ks vs)
        = "\x7b" ++ String.intercalate ", "
              (List.zipWith (fun k v => "'" ++ k ++ "': " ++ CustomConstant.str v) ks vs)
          ++ "\x7d" ++ String.intercalate ", " (vs.map CustomConstant.str) ++ "\x7d"
    ∧ CustomConstant.str (.Dict ks vs)
        ≠ "\x7b" ++ String.intercalate ", "
              (List.zipWith (fun k v => "'" ++ k ++ "': " ++ CustomConstant.str v) ks vs)
          ++ "\x7d" := by
  have h1 : CustomConstant.str (.Dict ks vs)
      = "\x7b" ++ String.intercalate ", "
            (List.zipWith (fun k v => "'" ++ k ++ "': " ++ CustomConstant.str v) ks vs)
        ++ "\x7d" ++ String.intercalate ", " (vs.map CustomConstant.str) ++ "\x7d" := by
    rw [CustomConstant.str, strPairs_eq_intercalate ks vs hlen, strList_eq_intercalate]
  refine ⟨h1, ?_⟩
  intro hcontra
  rw [h1] at hcontra
  have hlength := congrArg String.length hcontra
  simp only [String.length_append,
    show ("\x7d" : String).length = 1 from rfl] at hlength
  omega

/-- Witness for C10 at the one-entry mapping `{'a': 1}`, whose rendered
form is `{'a': 1}1}`. -/
theorem c10_witness :
    CustomConstant.str (.Dict ["a"] [.Int 1])
      = "\x7b" ++ String.intercalate ", "
            (List.zipWith (fun k v => "'" ++ k ++ "': " ++ CustomConstant.str v) ["a"] [CustomConstant.Int 1])
        ++ "\x7d" ++ String.intercalate ", " ([CustomConstant.Int 1].map CustomConstant.str) ++ "\x7d" :=
  (c10_dict_double_brace ["a"] [.Int 1] (by simp) rfl).1

/-- C7: for every source text the external parser rejects,
`evaluate_python_code` and `LocalPythonInterpreter::forward` fail with
`SyntaxError` carrying the parser's message, and the interpreter state —
environment bindings and print log alike — is exactly the state before
the call (no partial execution). -/
theorem c7_syntax_error_no_partial_evaluation
    (parse : String → Except String (List PyStmt)) (code msg : String)
    (tools : Tools) (st : InterpState) (h : parse code = .error msg) :
    evaluate_python_code tools (parse code) st = (.error (.SyntaxError msg), st)
    ∧ LocalPythonInterpreter.forward tools (parse code) st = (.error (.SyntaxError msg), st) := by
  rw [h]
  exact ⟨rfl, rfl⟩

/-- Witness for C7: a parser that rejects the probe text leaves a
non-trivial environment untouched. -/
theorem c7_witness :
    evaluate_python_code noTools ((fun _ => (.error "invalid syntax" : Except String (List PyStmt))) "print(")
        [("x", .const (.Int 1)), ("print_logs", .logs ["old"])]
      = (.error (.SyntaxError "invalid syntax"),
         [("x", .const (.Int 1)), ("print_logs", .logs ["old"])])
    ∧ LocalPythonInterpreter.forward noTools
        ((fun _ => (.error "invalid syntax" : Except String (List PyStmt))) "print(")
        [("x", .const (.Int 1)), ("print_logs", .logs ["old"])]
      = (.error (.SyntaxError "invalid syntax"),
         [("x", .const (.Int 1)), ("print_logs", .logs ["old"])]) :=
  c7_syntax_error_no_partial_evaluation (fun _ => .error "invalid syntax") "print("
    "invalid syntax" noTools [("x", .const (.Int 1)), ("print_logs", .logs ["old"])] rfl

/-- C6: for every sequence value (list or string) of length `n` and every
negative index `-n ≤ i < 0`, subscripting succeeds and yields the same
element as index `n + i`; for every index with `|i| > n` the subscript
fails with a `RuntimeError` whose message distinguishes the sequence kind
(`list index out of range` vs `string index out of range`). -/
theorem c6_negative_indexing (v : CustomConstant) (n : Nat) (i : Int)
    (hseq : seqLength v = some n) :
    (-(n : Int) ≤ i ∧ i < 0 →
      pyGetItem v i = pyGetItem v (i + n) ∧ ∃ w, pyGetItem v i = .ok w)
    ∧ ((n : Int) < |i| →
      pyGetItem v i = .error (.RuntimeError (seqIndexErrorMsg v))) := by
  cases v with
  | Tuple items =>
    simp only [seqLength, Option.some.injEq] at hseq
    subst hseq
    constructor
    · rintro ⟨h1, h2⟩
      have e1 : pyIndex i items.length = i + items.length := by
        simp [pyIndex, h2]
      have e2 : pyIndex (i + items.length) items.length = i + items.length := by
        simp only [pyIndex, if_neg (show ¬(i + (items.length : Int) < 0) by omega)]
      refine ⟨by simp only [pyGetItem, e1, e2], ?_⟩
      refine ⟨items.getD (pyIndex i items.length).toNat (.Str ""), ?_⟩
      simp only [pyGetItem]
      rw [if_pos ⟨by omega, by omega⟩]
    · intro habs
      simp only [pyGetItem, seqIndexErrorMsg]
      rcases le_or_lt 0 i with hi | hi
      · rw [abs_of_nonneg hi] at habs
        rw [if_neg (by simp only [pyIndex, if_neg (show ¬ i < 0 by omega)]; omega)]
      · rw [abs_of_neg hi] at habs
        rw [if_neg (by simp only [pyIndex, if_pos hi]; omega)]
  | Str s =>
    simp only [seqLength, Option.some.injEq] at hseq
    subst hseq
    constructor
    · rintro ⟨h1, h2⟩
      have e1 : pyIndex i s.data.length = i + s.data.length := by
        simp [pyIndex, h2]
      have e2 : pyIndex (i + s.data.length) s.data.length = i + s.data.length := by
        simp only [pyIndex, if_neg (show ¬(i + (s.data.length : Int) < 0) by omega)]
      refine ⟨by simp only [pyGetItem, e1, e2], ?_⟩
      refine ⟨.Str (String.mk [s.data.getD (pyIndex i s.data.length).toNat ' ']), ?_⟩
      simp only [pyGetItem]
      rw [if_pos ⟨by omega, by omega⟩]
    · intro habs
      simp only [pyGetItem, seqIndexErrorMsg]
      rcases le_or_lt 0 i with hi | hi
      · rw [abs_of_nonneg hi] at habs
        rw [if_neg (by simp only [pyIndex, if_neg (show ¬ i < 0 by omega)]; omega)]
      · rw [abs_of_neg hi] at habs
        rw [if_neg (by simp only [pyIndex, if_pos hi]; omega)]
  | Int i => simp [seqLength] at hseq
  | Bool b => simp [seqLength] at hseq
  | Dict ks vs => simp [seqLength] at hseq
  | PyObj r => simp [seqLength] at hseq

/-- Witness for C6 on the spec's own scenario string `'strawberry'`
(length 10): index `-3` agrees with index `7`, and index `11` raises the
string-kind `IndexError`. -/
theorem c6_witness :
    (pyGetItem (.Str "strawberry") (-3) = pyGetItem (.Str "strawberry") (-3 + (10 : Nat))
      ∧ ∃ w, pyGetItem (.Str "strawberry") (-3) = .ok w)
    ∧ pyGetItem (.Str "strawberry") 11
        = .error (.RuntimeError (seqIndexErrorMsg (.Str "strawberry"))) :=
  ⟨(c6_negative_indexing (.Str "strawberry") 10 (-3) rfl).1 (by norm_num),
   (c6_negative_indexing (.Str "strawberry") 10 11 rfl).2 (by norm_num)⟩

/-- C1: for every string `X`, evaluating the script
`final_answer(answer="X")` yields `InterpreterError::FinalAnswer(X)`
rather than a normal result — for any tool tables and any interpreter
state, which is left unchanged — the code agent's step handler turns that
signal into the step's final answer, and the run loop, upon a step
returning it, makes `run` return exactly `X`. -/
theorem c1_final_answer_round_trip (X : String) :
    (∀ (tools : Tools) (st : InterpState),
        evalAst tools [finalAnswerScript X] st = (.error (.FinalAnswer X), st)
        ∧ LocalPythonInterpreter.forward tools (.ok [finalAnswerScript X]) st
            = (.error (.FinalAnswer X), st))
    ∧ (∀ record, codeAgentHandleInterp (.error (.FinalAnswer X)) record = (some X, record))
    ∧ (∀ stepFn provideFn (st : AgentState) (record : AgentStep),
        st.stepNumber < st.maxSteps →
        stepFn st = .ok (some X, record) →
        direct_run stepFn provideFn st = .ok (X, st.advance record)) := by
  have hval : ∀ (tools : Tools) (st : InterpState),
      evalAst tools [finalAnswerScript X] st = (.error (.FinalAnswer X), st) := by
    intro tools st
    simp [evalAst, evalStmt, finalAnswerScript, evalExpr, evalExprList, evalKeywords,
      constToCustom, CustomConstant.str, List.lookup]
  refine ⟨fun tools st => ⟨hval tools st, ?_⟩, fun record => rfl, ?_⟩
  · simp [LocalPythonInterpreter.forward, hval tools st]
  · intro stepFn provideFn st record hlt hstep
    have hfuel : st.maxSteps - st.stepNumber = (st.maxSteps - st.stepNumber - 1) + 1 := by
      omega
    unfold direct_run
    rw [hfuel, runLoop, if_pos hlt, hstep]
    simp

/-- Witness for C1 at `X = "X"`: the concrete script evaluates to the
`FinalAnswer` signal on the empty environment, and a run whose first step
surfaces it returns `"X"`. -/
theorem c1_witness :
    evalAst noTools [finalAnswerScript "X"] [] = (.error (.FinalAnswer "X"), [])
    ∧ direct_run (fun _ => .ok (some "X", AgentStep.blank 0))
        (fun _ => .ok none) ⟨[], 0, 10, "task", "sp"⟩
        = .ok ("X", AgentState.advance ⟨[], 0, 10, "task", "sp"⟩ (AgentStep.blank 0)) :=
  ⟨((c1_final_answer_round_trip "X").1 noTools []).1,
   (c1_final_answer_round_trip "X").2.2 (fun _ => .ok (some "X", AgentStep.blank 0))
     (fun _ => .ok none) ⟨[], 0, 10, "task", "sp"⟩ (AgentStep.blank 0)
     (by norm_num) rfl⟩

/-- C8: for every batch of `M` tasks, once every spawned worker completes
the facility returns a result list of length `M` whose entry `i` is the
outcome of running task `i` — independent of the workers' completion
order — and a panicking worker only turns its own entry into the
`"Thread panicked"` error. -/
theorem c8_parallel_results (finishOrder : List Nat) (runWorker : String → WorkerOutcome)
    (tasks : List String)
    (hfin : ∀ i, i < tasks.length → finishOrder.contains i = true) :
    ∃ results,
      run_tasks_parallel finishOrder runWorker tasks = some results
      ∧ results.length = tasks.length
      ∧ (∀ i, i < tasks.length →
          results[i]? = some (joinOutcome (runWorker (tasks.getD i ""))))
      ∧ (∀ finishOrder', (∀ i, i < tasks.length → finishOrder'.contains i = true) →
          run_tasks_parallel finishOrder' runWorker tasks = some results)
      ∧ (∀ i, i < tasks.length → runWorker (tasks.getD i "") = .panicked →
          results[i]? = some (.error "Thread panicked")) := by
  refine ⟨tasks.map (fun t => joinOutcome (runWorker t)), ?_, by simp, ?_, ?_, ?_⟩
  · unfold run_tasks_parallel
    rw [if_pos]
    simp only [List.all_eq_true, List.mem_range]
    exact hfin
  · intro i hi
    rw [List.getElem?_map, List.getElem?_eq_getElem hi,
      List.getD_eq_getElem tasks "" hi]
    rfl
  · intro finishOrder' hfin'
    unfold run_tasks_parallel
    rw [if_pos]
    simp only [List.all_eq_true, List.mem_range]
    exact hfin'
  · intro i hi hp
    rw [List.getElem?_map, List.getElem?_eq_getElem hi, ← List.getD_eq_getElem tasks "" hi]
    show some (joinOutcome (runWorker (tasks.getD i ""))) = some (.error "Thread panicked")
    rw [hp]
    rfl

/-- Witness for C8 on a two-task batch where worker 1 panics and the
workers finish in reverse order. -/
theorem c8_witness :
    ∃ results,
      run_tasks_parallel [1, 0]
          (fun t => if t = "a" then WorkerOutcome.completed (.ok "ra") else .panicked)
          ["a", "b"] = some results
      ∧ results.length = 2
      ∧ results[1]? = some (.error "Thread panicked") := by
  obtain ⟨results, h1, h2, h3, _, h5⟩ :=
    c8_parallel_results [1, 0]
      (fun t => if t = "a" then WorkerOutcome.completed (.ok "ra") else .panicked)
      ["a", "b"] (by intro i hi; simp at hi; interval_cases i <;> rfl)
  exact ⟨results, h1, by simpa using h2, h5 1 (by norm_num) rfl⟩

/-- C3 counterexample: a run over the transcript
`[SystemPromptStep, TaskStep]` with `max_steps = 1` performs its one step,
exhausts the bound, and — its summary projection
`[System "sp", User "New Task: t"]` being non-empty, so the Rust `[1..]`
slice succeeds and the gateway call is reached — a failing Model Gateway
makes `direct_run` return the propagated `Generation("model failure")`
error, not the fixed `"Max steps reached without final answer"` string
the claim promises; and the best-effort call's input is not the
full-mode projection minus the system-prompt row: on a transcript whose
`ActionStep` carries raw model output, the summary-mode input the code
builds omits it. -/
theorem c3_counterexample :
    direct_run (fun _ => .ok (none, AgentStep.blank 0))
        (provide_final_answer (fun _ => .error (.Generation "model failure")) (fun _ => ""))
        ⟨[Step.SystemPromptStep "sp", Step.TaskStep "t"], 0, 1, "t", "sp"⟩
      = .error (.Generation "model failure")
    ∧ provideInputMessages (fun _ => "")
          ⟨[Step.SystemPromptStep "sp",
            Step.ActionStep { AgentStep.blank 0 with llmOutput := some "thought" }],
           2, 2, "t2", "sp"⟩
        ≠ Message.mk .System stuckFraming
            :: ((write_inner_memory_from_logs (fun _ => "") false
                  [Step.SystemPromptStep "sp",
                   Step.ActionStep { AgentStep.blank 0 with llmOutput := some "thought" }]).drop 1
              ++ [Message.mk .User (finalRequestText ++ "t2")]) := by
  exact ⟨rfl, by decide⟩

/-- C3 (amended): when the step loop exhausts `max_steps` without a final
answer, the agent issues exactly one more Model Gateway call whose input
is the framing system message, the summary-mode projection of the memory
minus its first row, and a closing user request; if that call fails,
`run` propagates the failure (the fixed `"Max steps reached without final
answer"` string is only an unreached fallback), and if it succeeds its
response is returned.  The last hypothesis confines the statement to
states whose summary projection is non-empty: on an empty projection the
Rust `[1..]` slice (agents.rs:178) panics before the gateway call, a path
the total `List.drop` model does not reproduce. -/
theorem c3_exhaustion_amended
    (stepFn : AgentState → Except AgentError (Option String × AgentStep))
    (modelRun : List Message → Except AgentError String) (ser : ToolCall → String)
    (st st' : AgentState)
    (hloop : runLoop stepFn (st.maxSteps - st.stepNumber) st = .ok (none, st'))
    (hmax : st'.maxSteps ≤ st'.stepNumber)
    (_hproj : write_inner_memory_from_logs ser true st'.logs ≠ []) :
    provideInputMessages ser st'
        = Message.mk .System stuckFraming
            :: ((write_inner_memory_from_logs ser true st'.logs).drop 1
              ++ [Message.mk .User (finalRequestText ++ st'.task)])
    ∧ (∀ e, modelRun (provideInputMessages ser st') = .error e →
        direct_run stepFn (provide_final_answer modelRun ser) st = .error e)
    ∧ (∀ a, modelRun (provideInputMessages ser st') = .ok a →
        direct_run stepFn (provide_final_answer modelRun ser) st = .ok (a, st')) := by
  refine ⟨rfl, ?_, ?_⟩
  · intro e he
    unfold direct_run
    rw [hloop]
    show (if (none : Option String).isNone ∧ st'.maxSteps ≤ st'.stepNumber then _ else _) = _
    rw [if_pos ⟨rfl, hmax⟩]
    unfold provide_final_answer
    rw [he]
  · intro a ha
    unfold direct_run
    rw [hloop]
    show (if (none : Option String).isNone ∧ st'.maxSteps ≤ st'.stepNumber then _ else _) = _
    rw [if_pos ⟨rfl, hmax⟩]
    unfold provide_final_answer
    rw [ha]
    rfl

/-- Witness for the amended C3: over the transcript
`[SystemPromptStep, TaskStep]` with `max_steps = 1`, one step runs, the
bound is exhausted with a non-empty summary projection, and the
succeeding best-effort call's response is returned by `direct_run`. -/
theorem c3_amended_witness :
    direct_run (fun _ => .ok (none, AgentStep.blank 0))
        (provide_final_answer (fun _ => .ok "best effort") (fun _ => ""))
        ⟨[Step.SystemPromptStep "sp", Step.TaskStep "t"], 0, 1, "t", "sp"⟩
      = .ok ("best effort",
          ⟨[Step.SystemPromptStep "sp", Step.TaskStep "t",
            Step.ActionStep (AgentStep.blank 0)], 1, 1, "t", "sp"⟩) :=
  (c3_exhaustion_amended (fun _ => .ok (none, AgentStep.blank 0))
      (fun _ => .ok "best effort") (fun _ => "")
      ⟨[Step.SystemPromptStep "sp", Step.TaskStep "t"], 0, 1, "t", "sp"⟩
      ⟨[Step.SystemPromptStep "sp", Step.TaskStep "t",
        Step.ActionStep (AgentStep.blank 0)], 1, 1, "t", "sp"⟩
      rfl (Nat.le_refl 1) (by decide)).2.2
    "best effort" rfl

/-- The dispatch loop turns every unregistered, non-`final_answer` tool
call into the `"Tool not found"` observation entry and keeps going. -/
theorem processToolCalls_all_unregistered (registry : List ToolEntry) :
    ∀ (calls : List ToolCall) (obs : List String),
      (∀ c ∈ calls, c.function.name ≠ "final_answer"
        ∧ registry.find? (fun t => t.name = c.function.name) = none) →
      processToolCalls registry calls obs
        = .ok (none, obs ++ calls.map (fun _ => "Tool not found"))
  | [], obs => fun _ => by simp [processToolCalls]
  | c :: rest, obs => fun h => by
    obtain ⟨hname, hfind⟩ := h c (by simp)
    rw [processToolCalls, if_neg hname]
    unfold toolGroupCall
    rw [hfind]
    show processToolCalls registry rest (obs ++ [(AgentError.Execution "Tool not found").message])
      = _
    rw [processToolCalls_all_unregistered registry rest _
      (fun c' hc' => h c' (by simp [hc']))]
    simp [AgentError.message]

/-- C4 counterexample: a step whose Model Gateway returns one tool call
for an unregistered name produces an ActionRecord whose `error` field is
`None` — the failure text lands in the observations instead — refuting
the claimed non-empty `error` field. -/
theorem c4_counterexample :
    functionCallingStep []
        ⟨none, [⟨some "call_1", some "function", ⟨"unregistered_tool", "\x7b\x7d"⟩⟩]⟩
        (AgentStep.blank 0)
      = .ok (none,
          { AgentStep.blank 0 with
              toolCall := some [⟨some "call_1", some "function", ⟨"unregistered_tool", "\x7b\x7d"⟩⟩],
              observations := some ["Tool not found"] })
    ∧ ({ AgentStep.blank 0 with
          toolCall := some [⟨some "call_1", some "function", ⟨"unregistered_tool", "\x7b\x7d"⟩⟩],
          observations := some ["Tool not found"] } : AgentStep).error = none := by
  exact ⟨rfl, rfl⟩

/-- C4 (amended): for every step in which the Model Gateway returns only
tool calls whose names are unregistered (and not `final_answer`), the
appended ActionRecord keeps its `error` field unchanged (`None` on a
blank record) and instead records one non-empty `"Tool not found"`
observation per call, and the step returns `Ok(None)`, so the run
continues to the next step rather than aborting. -/
theorem c4_unregistered_tool_amended (registry : List ToolEntry) (resp : ModelResponse)
    (record : AgentStep)
    (hcontent : resp.content = none)
    (hne : resp.toolCalls ≠ [])
    (hunreg : ∀ c ∈ resp.toolCalls, c.function.name ≠ "final_answer"
        ∧ registry.find? (fun t => t.name = c.function.name) = none) :
    functionCallingStep registry resp record
        = .ok (none,
            { record with
                toolCall := some resp.toolCalls,
                observations := some (resp.toolCalls.map (fun _ => "Tool not found")) })
    ∧ resp.toolCalls.map (fun _ => "Tool not found") ≠ []
    ∧ (∀ stepFn (st : AgentState) fuel rec,
        st.stepNumber < st.maxSteps → stepFn st = .ok ((none : Option String), rec) →
        runLoop stepFn (fuel + 1) st = runLoop stepFn fuel (st.advance rec)) := by
  refine ⟨?_, by simpa using hne, ?_⟩
  · obtain ⟨c, rest, htc⟩ : ∃ c rest, resp.toolCalls = c :: rest := by
      cases h : resp.toolCalls with
      | nil => exact absurd h hne
      | cons c rest => exact ⟨c, rest, rfl⟩
    simp only [functionCallingStep, hcontent, htc]
    rw [processToolCalls_all_unregistered registry (c :: rest) [] (htc ▸ hunreg)]
    simp
  · intro stepFn st fuel rec hlt hstep
    rw [runLoop, if_pos hlt, hstep]

/-- Witness for the amended C4: one unregistered call against an empty
registry yields the `"Tool not found"` observation, an untouched `error`
field, and a continuing step. -/
theorem c4_amended_witness :
    functionCallingStep []
        ⟨none, [⟨some "call_1", some "function", ⟨"t1", "\x7b\x7d"⟩⟩]⟩ (AgentStep.blank 0)
      = .ok (none,
          { AgentStep.blank 0 with
              toolCall := some [⟨some "call_1", some "function", ⟨"t1", "\x7b\x7d"⟩⟩],
              observations := some
                ([(⟨some "call_1", some "function", ⟨"t1", "\x7b\x7d"⟩⟩ : ToolCall)].map
                  (fun _ => "Tool not found")) }) :=
  (c4_unregistered_tool_amended []
      ⟨none, [⟨some "call_1", some "function", ⟨"t1", "\x7b\x7d"⟩⟩]⟩ (AgentStep.blank 0)
      rfl (by simp)
      (by intro c hc; simp at hc; subst hc; exact ⟨by decide, rfl⟩)).1

/-- C5 counterexample: an ActionRecord whose single tool call carries no
id and whose observations are present is projected to a
`"Call id: \nObservation: obs1"` User message — not to the combined
`"Observations: obs1"` message the claim requires exactly when the calls
carry no ids. -/
theorem c5_counterexample :
    write_inner_memory_from_logs (fun _ => "TC") false
        [Step.ActionStep ⟨none, none,
          some [⟨none, some "function", ⟨"python_interpreter", "code"⟩⟩],
          none, some ["obs1"], 0⟩]
      = [Message.mk .Assistant "TC", Message.mk .User "Call id: \nObservation: obs1"]
    ∧ Message.mk .User "Observations: obs1"
        ∉ write_inner_memory_from_logs (fun _ => "TC") false
            [Step.ActionStep ⟨none, none,
              some [⟨none, some "function", ⟨"python_interpreter", "code"⟩⟩],
              none, some ["obs1"], 0⟩] := by
  exact ⟨rfl, by decide⟩

/-- C5 (amended): for every ActionStep carrying both a tool-call list and
observations, Memory Projection emits one User message per tool call,
formatted `"Call id: <id>\nObservation: <i-th observation>"` with an
absent id rendered empty; the combined `"Observations: <joined>"` User
message is emitted exactly when observations are present but the
tool-call list is absent (regardless of ids); in either case an
additional User message carries the retry-hint error text when an error
is present; and the projection treats each transcript entry locally. -/
theorem c5_projection_amended (ser : ToolCall → String) (rec : AgentStep) :
    (∀ tcs obs, rec.toolCall = some tcs → rec.observations = some obs →
      write_inner_memory_from_logs ser false [Step.ActionStep rec]
        = (match rec.llmOutput with
            | some out => [Message.mk .Assistant out]
            | none => [])
          ++ tcs.map (fun tc => Message.mk .Assistant (ser tc))
          ++ tcs.enum.map (fun p =>
              Message.mk .User
                ("Call id: " ++ p.2.id.getD "" ++ "\nObservation: " ++ obs.getD p.1 ""))
          ++ (match rec.error with
              | some e => [Message.mk .User ("Error: " ++ e.message ++ retryHint)]
              | none => []))
    ∧ (∀ obs, rec.toolCall = none → rec.observations = some obs →
        write_inner_memory_from_logs ser false [Step.ActionStep rec]
          = (match rec.llmOutput with
              | some out => [Message.mk .Assistant out]
              | none => [])
            ++ [Message.mk .User ("Observations: " ++ String.intercalate "\n" obs)]
            ++ (match rec.error with
                | some e => [Message.mk .User ("Error: " ++ e.message ++ retryHint)]
                | none => []))
    ∧ (∀ summaryMode pre post,
        write_inner_memory_from_logs ser summaryMode (pre ++ Step.ActionStep rec :: post)
          = write_inner_memory_from_logs ser summaryMode pre
            ++ stepMessages ser summaryMode (Step.ActionStep rec)
            ++ write_inner_memory_from_logs ser summaryMode post) := by
  refine ⟨?_, ?_, ?_⟩
  · intro tcs obs h1 h2
    cases hout : rec.llmOutput <;> cases herr : rec.error <;>
      simp [write_inner_memory_from_logs, stepMessages, h1, h2, hout, herr]
  · intro obs h1 h2
    cases hout : rec.llmOutput <;> cases herr : rec.error <;>
      simp [write_inner_memory_from_logs, stepMessages, h1, h2, hout, herr]
  · intro summaryMode pre post
    induction pre with
    | nil => simp [write_inner_memory_from_logs]
    | cons x xs ih =>
      simp [write_inner_memory_from_logs] at ih ⊢

/-- Witness for the amended C5 at a concrete record with an id-carrying
call, one observation, raw model output and no error. -/
theorem c5_amended_witness :
    write_inner_memory_from_logs (fun _ => "TC") false
        [Step.ActionStep ⟨none, some "out",
          some [⟨some "id9", some "function", ⟨"f", "a"⟩⟩], none, some ["o1"], 0⟩]
      = [Message.mk .Assistant "out", Message.mk .Assistant "TC",
         Message.mk .User "Call id: id9\nObservation: o1"] := by
  have h := (c5_projection_amended (fun _ => "TC")
      ⟨none, some "out", some [⟨some "id9", some "function", ⟨"f", "a"⟩⟩],
        none, some ["o1"], 0⟩).1
      [⟨some "id9", some "function", ⟨"f", "a"⟩⟩] ["o1"] rfl rfl
  simpa using h

end Smolagents
